import Mathlib

/-!
# Verification of the AMX instruction-encoding and activation layer

A shallow embedding of the `amx` crate (Apple AMX coprocessor wrapper).
Pure bit-packing functions (`MemArgs::encode`, the `mac16` and `genlut`
operand builders, the `op_in` register-index recovery) are translated as
functions on `Nat`; the stateful activation guard (`nativectx.rs`) becomes
explicit state passing over the thread-local `CTX_ACTIVE` flag; backend
invocations (`AmxOps` trait methods) are recorded as values of inductive
call types so that trace properties can be stated; the `assert!` guards of
`load_store.rs` become `Option`-valued functions where `none` is a panic.
-/

/-- The `.word` expression emitted by `op_in` in `nativeops.rs`/`ops.rs`:
`0x00201000 + (op << 5) + (0operand & 0xf) + (0operand >> 4) * 10`, where
`h` stands for the value of the `0{operand}` token after the assembler has
read the register alias as a hexadecimal numeral. -/
def opInWord (op h : Nat) : Nat :=
  0x00201000 + (op <<< 5) + (h &&& 0xf) + (h >>> 4) * 10

/-- The corruption reversed by `opInWord`, as described by the comment in
`op_in`: the register alias of register `n` (e.g. `x25` for `n = 25`) is
prefixed with `0` and read by the assembler as a hexadecimal numeral
(`0x25 = 37`), i.e. the decimal digit string of `n` (two digits, `n < 100`)
is reinterpreted in base 16. -/
def decimalAsHex (n : Nat) : Nat :=
  n / 10 * 16 + n % 10

/-- The `.word` expression emitted by `op_imm` in `nativeops.rs`:
`0x00201000 + (op << 5) + operand`. -/
def opImmWord (op operand : Nat) : Nat :=
  0x00201000 + (op <<< 5) + operand

/-- Source: `NewAmxCtxError` from `nativectx.rs`. -/
inductive NewAmxCtxError where
  | alreadyActive
  | unsupported
deriving DecidableEq, Repr

/-- The two immediate-operand coprocessor instructions emitted by
`nativectx.rs`: `set` (`op_imm::<17, 0>`) enables AMX, `clr`
(`op_imm::<17, 1>`) disables it. -/
inductive CoInstr where
  | set
  | clr
deriving DecidableEq, Repr

/-- The instruction word of a `CoInstr` (from `nativeops.rs` `set`/`clr`). -/
def CoInstr.word : CoInstr → Nat
  | .set => opImmWord 17 0
  | .clr => opImmWord 17 1

/-- Source: `AmxCtx::new` from `nativectx.rs`, as a function of the thread's
`CTX_ACTIVE` flag. Returns the result, the flag after the call, and the
list of coprocessor instructions emitted. The source reads the flag and,
when it is clear, emits `set()` and returns `Ok`; it performs no write to
`CTX_ACTIVE` on either branch. -/
def amxCtxNew (ctxActive : Bool) :
    Except NewAmxCtxError Unit × Bool × List CoInstr :=
  if ctxActive then
    (Except.error NewAmxCtxError.alreadyActive, ctxActive, [])
  else
    (Except.ok (), ctxActive, [CoInstr.set])

/-- Source: `impl Drop for AmxCtx` from `nativectx.rs`: emits `clr()` and sets
`CTX_ACTIVE` to `false`. -/
def amxCtxDrop (_ctxActive : Bool) : Bool × List CoInstr :=
  (false, [CoInstr.clr])

/-- Source: `MemSize` from `load_store.rs`/`lib.rs`. -/
inductive MemSize where
  | sz64
  | sz128
deriving DecidableEq, Repr

/-- The `#[repr(u8)]` discriminant of `MemSize` (`_64 = 0`, `_128 = 1`). -/
def MemSize.code : MemSize → Nat
  | .sz64 => 0
  | .sz128 => 1

/-- Source: `MemArgs` from `load_store.rs` (the pointer is passed by a separate
parameter when using `AmxOps`). -/
structure MemArgs where
  reg_offset : Nat
  size : MemSize
deriving DecidableEq

/-- Source: `MemArgs::encode` from `load_store.rs`:
`(reg_offset << 56) | ((size as u64) << 62)`. -/
def MemArgs.encode (a : MemArgs) : Nat :=
  (a.reg_offset <<< 56) ||| (a.size.code <<< 62)

/-- Source: `MemArgs` from `lib.rs` (pointer embedded in the operand word). -/
structure LibMemArgs where
  ptr : Nat
  reg_offset : Nat
  size : MemSize
deriving DecidableEq

/-- Source: `MemArgs::encode` from `lib.rs`:
`(ptr as u64) & 0x00ff_ffff_ffff_ffff | (reg_offset << 56) | ((size as u64) << 62)`. -/
def LibMemArgs.encode (a : LibMemArgs) : Nat :=
  (a.ptr &&& 0x00ffffffffffffff) ||| (a.reg_offset <<< 56) ||| (a.size.code <<< 62)

/-- The operand word built by the hardware backend's load/store methods in
`nativeops.rs` (`impl AmxOps for AmxOps`): `x | (ptr as u64 & 0x00ff_ffff_ffff_ffff)`. -/
def hwLoadStoreWord (x ptr : Nat) : Nat :=
  x ||| (ptr &&& 0x00ffffffffffffff)

/-- A backend invocation through the `ops.rs` `AmxOps` trait (the one used
by `load_store.rs` and `genlut.rs`): load/store methods take the operand
word and the pointer as separate parameters. Only the constructors needed
by the verified call sites are listed. -/
inductive Call where
  | ldx (x ptr : Nat)
  | ldy (x ptr : Nat)
  | stx (x ptr : Nat)
  | sty (x ptr : Nat)
  | ldz (x ptr : Nat)
  | stz (x ptr : Nat)
  | ldzi (x ptr : Nat)
  | stzi (x ptr : Nat)
  | genlut (x : Nat)
deriving DecidableEq, Repr

/-- A backend invocation through the `lib.rs` `Amx` trait's underlying ops
(single operand word, pointer already embedded). -/
inductive LibCall where
  | stx (x : Nat)
  | sty (x : Nat)
  | stz (x : Nat)
  | mac16 (x : Nat)
deriving DecidableEq, Repr

/-- Source: `Amx::store512_x` from `lib.rs`: `self.stx(MemArgs { ptr, reg_offset: index, size: _64 }.encode())`. -/
def store512_x (ptr index : Nat) : LibCall :=
  LibCall.stx (LibMemArgs.encode ⟨ptr, index, MemSize.sz64⟩)

/-- Source: `Amx::store512_y` from `lib.rs`. -/
def store512_y (ptr index : Nat) : LibCall :=
  LibCall.sty (LibMemArgs.encode ⟨ptr, index, MemSize.sz64⟩)

/-- Source: `Amx::store512_z` from `lib.rs`. -/
def store512_z (ptr index : Nat) : LibCall :=
  LibCall.stz (LibMemArgs.encode ⟨ptr, index, MemSize.sz64⟩)

/-- Source: `Amx::read_x` from `lib.rs`: for `i in 0..8`, `store512_x(ret_ptr + i * 64, i)`.
`ret` is the address of the 512-byte output buffer; the returned list is
the sequence of backend calls issued. -/
def read_x (ret : Nat) : List LibCall :=
  (List.range 8).map fun i => store512_x (ret + i * 64) i

/-- Source: `Amx::read_y` from `lib.rs`. -/
def read_y (ret : Nat) : List LibCall :=
  (List.range 8).map fun i => store512_y (ret + i * 64) i

/-- Source: `Amx::read_z` from `lib.rs`: 64 rows. -/
def read_z (ret : Nat) : List LibCall :=
  (List.range 64).map fun i => store512_z (ret + i * 64) i

/-- The operand word computed by `Amx::outer_product_i16_xy_to_z` in
`lib.rs`: `y_offset_bytes | (x_offset_bytes << 10) | (z_index << 20) |
((!accumulate as usize) << 27) | ((ignore_x as usize) << 28) |
((ignore_y as usize) << 29)`. -/
def outer_product_operand (x_offset_bytes y_offset_bytes z_index : Nat)
    (accumulate ignore_x ignore_y : Bool) : Nat :=
  y_offset_bytes ||| (x_offset_bytes <<< 10) ||| (z_index <<< 20) |||
    ((!accumulate).toNat <<< 27) ||| (ignore_x.toNat <<< 28) |||
    (ignore_y.toNat <<< 29)

/-- Source: `Amx::outer_product_i16_xy_to_z` from `lib.rs`: a single `mac16` call
with the packed operand word. -/
def outer_product_i16_xy_to_z (x_offset_bytes y_offset_bytes z_index : Nat)
    (accumulate ignore_x ignore_y : Bool) : LibCall :=
  LibCall.mac16
    (outer_product_operand x_offset_bytes y_offset_bytes z_index
      accumulate ignore_x ignore_y)

/-- Source: `XRow` from `regs.rs` (row of the `x` register set, index in `0..8`). -/
structure XRow where
  val : Nat
deriving DecidableEq, Repr

/-- Source: `YRow` from `regs.rs` (row of the `y` register set, index in `0..8`). -/
structure YRow where
  val : Nat
deriving DecidableEq, Repr

/-- Source: `ZRow` from `regs.rs` (row of the `z` register set, index in `0..64`). -/
structure ZRow where
  val : Nat
deriving DecidableEq, Repr

/-- Source: `XBytes` from `regs.rs` (byte offset into `x`, in `0..512`). -/
structure XBytes where
  val : Nat
deriving DecidableEq, Repr

/-- Source: `YBytes` from `regs.rs` (byte offset into `y`, in `0..512`). -/
structure YBytes where
  val : Nat
deriving DecidableEq, Repr

/-- Source: `<XRow as LoadStore>::load512` from `load_store.rs`:
`assert!(index < 8)`, then `ops.ldx(MemArgs { reg_offset: index, size: _64 }.encode(), ptr)`.
The `assert!` is unconditional (present in release builds); a failed
assertion is a panic before any backend call, modelled as `none`. -/
def XRow.load512 (self : XRow) (ptr : Nat) : Option Call :=
  if self.val < 8 then
    some (Call.ldx (MemArgs.encode ⟨self.val, MemSize.sz64⟩) ptr)
  else none

/-- Source: `<XRow as LoadStore>::store512` from `load_store.rs`. -/
def XRow.store512 (self : XRow) (ptr : Nat) : Option Call :=
  if self.val < 8 then
    some (Call.stx (MemArgs.encode ⟨self.val, MemSize.sz64⟩) ptr)
  else none

/-- Source: `<XRow as LoadStore>::load1024_aligned` from `load_store.rs`. -/
def XRow.load1024_aligned (self : XRow) (ptr : Nat) : Option Call :=
  if self.val < 8 then
    some (Call.ldx (MemArgs.encode ⟨self.val, MemSize.sz128⟩) ptr)
  else none

/-- Source: `<XRow as LoadStore>::store1024_aligned` from `load_store.rs`. -/
def XRow.store1024_aligned (self : XRow) (ptr : Nat) : Option Call :=
  if self.val < 8 then
    some (Call.stx (MemArgs.encode ⟨self.val, MemSize.sz128⟩) ptr)
  else none

/-- Source: `<YRow as LoadStore>::load512` from `load_store.rs`. -/
def YRow.load512 (self : YRow) (ptr : Nat) : Option Call :=
  if self.val < 8 then
    some (Call.ldy (MemArgs.encode ⟨self.val, MemSize.sz64⟩) ptr)
  else none

/-- Source: `<YRow as LoadStore>::store512` from `load_store.rs`. -/
def YRow.store512 (self : YRow) (ptr : Nat) : Option Call :=
  if self.val < 8 then
    some (Call.sty (MemArgs.encode ⟨self.val, MemSize.sz64⟩) ptr)
  else none

/-- Source: `<YRow as LoadStore>::load1024_aligned` from `load_store.rs`. -/
def YRow.load1024_aligned (self : YRow) (ptr : Nat) : Option Call :=
  if self.val < 8 then
    some (Call.ldy (MemArgs.encode ⟨self.val, MemSize.sz128⟩) ptr)
  else none

/-- Source: `<YRow as LoadStore>::store1024_aligned` from `load_store.rs`. -/
def YRow.store1024_aligned (self : YRow) (ptr : Nat) : Option Call :=
  if self.val < 8 then
    some (Call.sty (MemArgs.encode ⟨self.val, MemSize.sz128⟩) ptr)
  else none

/-- Source: `<ZRow as LoadStore>::load512` from `load_store.rs` (`assert!(index < 64)`). -/
def ZRow.load512 (self : ZRow) (ptr : Nat) : Option Call :=
  if self.val < 64 then
    some (Call.ldz (MemArgs.encode ⟨self.val, MemSize.sz64⟩) ptr)
  else none

/-- Source: `<ZRow as LoadStore>::store512` from `load_store.rs`. -/
def ZRow.store512 (self : ZRow) (ptr : Nat) : Option Call :=
  if self.val < 64 then
    some (Call.stz (MemArgs.encode ⟨self.val, MemSize.sz64⟩) ptr)
  else none

/-- Source: `<ZRow as LoadStore>::load1024_aligned` from `load_store.rs`. -/
def ZRow.load1024_aligned (self : ZRow) (ptr : Nat) : Option Call :=
  if self.val < 64 then
    some (Call.ldz (MemArgs.encode ⟨self.val, MemSize.sz128⟩) ptr)
  else none

/-- Source: `<ZRow as LoadStore>::store1024_aligned` from `load_store.rs`. -/
def ZRow.store1024_aligned (self : ZRow) (ptr : Nat) : Option Call :=
  if self.val < 64 then
    some (Call.stz (MemArgs.encode ⟨self.val, MemSize.sz128⟩) ptr)
  else none

/-- Source: `load512_z_interleaved` from `load_store.rs` (`assert!(index < 64)`,
then `ops.ldzi(..)`). -/
def load512_z_interleaved (ptr : Nat) (row : ZRow) : Option Call :=
  if row.val < 64 then
    some (Call.ldzi (MemArgs.encode ⟨row.val, MemSize.sz64⟩) ptr)
  else none

/-- Source: `store512_z_interleaved` from `load_store.rs`. -/
def store512_z_interleaved (ptr : Nat) (row : ZRow) : Option Call :=
  if row.val < 64 then
    some (Call.stzi (MemArgs.encode ⟨row.val, MemSize.sz64⟩) ptr)
  else none

/-- The 16 `LutTy` marker-type combinations from `genlut.rs`
(`define_lut_ty!`), one constructor per `(direction, index, value)` triple
in the macro invocation. -/
inductive LutTy where
  | reverse_index4_f32
  | reverse_index5_f16
  | reverse_index4_f64
  | reverse_index4_i32
  | reverse_index5_i16
  | reverse_index4_u32
  | reverse_index5_u16
  | normal_index2_x32
  | normal_index2_x16
  | normal_index2_x8
  | normal_index4_x64
  | normal_index4_x32
  | normal_index4_x16
  | normal_index4_x8
  | normal_index5_x16
  | normal_index5_x8
deriving DecidableEq, Repr, Fintype

/-- Source: `genlut_mode` from `genlut.rs` (`define_lut_ty!` expansion): the raw
LUT mode number of each combination. -/
def genlut_mode : LutTy → Nat
  | .reverse_index4_f32 => 0
  | .reverse_index5_f16 => 1
  | .reverse_index4_f64 => 2
  | .reverse_index4_i32 => 3
  | .reverse_index5_i16 => 4
  | .reverse_index4_u32 => 5
  | .reverse_index5_u16 => 6
  | .normal_index2_x32 => 7
  | .normal_index2_x16 => 8
  | .normal_index2_x8 => 9
  | .normal_index4_x64 => 10
  | .normal_index4_x32 => 11
  | .normal_index4_x16 => 12
  | .normal_index4_x8 => 13
  | .normal_index5_x16 => 14
  | .normal_index5_x8 => 15

/-- A `genlut` input (the `LutIn` trait of `genlut.rs` is implemented for
`XBytes` and `YBytes`). -/
inductive GenLutInput where
  | xBytes (b : XBytes)
  | yBytes (b : YBytes)
deriving DecidableEq, Repr

/-- Source: `LutIn::as_genlut_input_param` from `genlut.rs`: `XBytes` passes the
offset, `YBytes` additionally sets bit 10 ("input is in Y"). -/
def GenLutInput.as_genlut_input_param : GenLutInput → Nat
  | .xBytes b => b.val
  | .yBytes b => b.val ||| (1 <<< 10)

/-- The input byte offset of a `GenLutInput` (the contained `usize`). -/
def GenLutInput.offset : GenLutInput → Nat
  | .xBytes b => b.val
  | .yBytes b => b.val

/-- Whether a `GenLutInput` addresses the `y` register set. -/
def GenLutInput.isY : GenLutInput → Bool
  | .xBytes _ => false
  | .yBytes _ => true

/-- A `genlut` output (the `LutOut` trait of `genlut.rs` is implemented for
`XRow`, `YRow` and `ZRow`). -/
inductive GenLutOutput where
  | xRow (r : XRow)
  | yRow (r : YRow)
  | zRow (r : ZRow)
deriving DecidableEq, Repr

/-- Source: `LutOut::as_genlut_output_param` from `genlut.rs`: the row shifted to
bit 20; `YRow` additionally sets bit 25, `ZRow` additionally sets bit 26. -/
def GenLutOutput.as_genlut_output_param : GenLutOutput → Nat
  | .xRow r => r.val <<< 20
  | .yRow r => (r.val <<< 20) ||| (1 <<< 25)
  | .zRow r => (r.val <<< 20) ||| (1 <<< 26)

/-- The output row index of a `GenLutOutput` (the contained `usize`). -/
def GenLutOutput.row : GenLutOutput → Nat
  | .xRow r => r.val
  | .yRow r => r.val
  | .zRow r => r.val

/-- Whether a `GenLutOutput` is a row of the `y` register set. -/
def GenLutOutput.isY : GenLutOutput → Bool
  | .xRow _ => false
  | .yRow _ => true
  | .zRow _ => false

/-- Whether a `GenLutOutput` is a row of the `z` register set. -/
def GenLutOutput.isZ : GenLutOutput → Bool
  | .xRow _ => false
  | .yRow _ => false
  | .zRow _ => true

/-- The row-index bound documented for each `GenLutOutput` kind
(`0..8` for `XRow`/`YRow`, `0..64` for `ZRow`). -/
def GenLutOutput.rowBound : GenLutOutput → Nat
  | .xRow _ => 8
  | .yRow _ => 8
  | .zRow _ => 64

/-- The operand word built by `lut` in `genlut.rs`:
`input.as_genlut_input_param() | output.as_genlut_output_param() |
(mode.genlut_mode() << 53) | ((table_row as u64) << 60)`. -/
def lutOperand (input : GenLutInput) (table_row : Nat) (output : GenLutOutput)
    (mode : LutTy) : Nat :=
  input.as_genlut_input_param ||| output.as_genlut_output_param |||
    (genlut_mode mode <<< 53) ||| (table_row <<< 60)

/-- Source: `lut` from `genlut.rs`: one `genlut` backend call carrying the packed
operand word (the table row is the `XRow` argument's index). -/
def lut (input : GenLutInput) (table_row : Nat) (output : GenLutOutput)
    (mode : LutTy) : Call :=
  Call.genlut (lutOperand input table_row output mode)

/-- Source: `AmxSt` from `emu.rs`: the three register files as byte arrays
(`x: [u8; 512]`, `y: [u8; 512]`, `z: [u8; 4096]`), modelled as lists. -/
structure AmxSt where
  x : List Nat
  y : List Nat
  z : List Nat
deriving DecidableEq, Repr

/-- Source: `impl Default for AmxSt` from `emu.rs`: all three arrays zero-filled
(`x: [0; 512]`, `y: [0; 512]`, `z: [0; 4096]`). -/
def AmxSt.deflt : AmxSt :=
  ⟨List.replicate 512 0, List.replicate 512 0, List.replicate 4096 0⟩

/-- Source: `AmxEmuCtx` from `emu.rs`. -/
structure AmxEmuCtx where
  st : AmxSt
deriving DecidableEq, Repr

/-- The derived `Default` of `AmxEmuCtx` (field-wise, using `AmxSt`'s
`Default`). -/
def AmxEmuCtx.deflt : AmxEmuCtx :=
  ⟨AmxSt.deflt⟩

/-- Source: `AmxEmuCtx::new` from `emu.rs`: `Self::default()`. -/
def AmxEmuCtx.new : AmxEmuCtx :=
  AmxEmuCtx.deflt

/-- Bitwise-or of values with disjoint binary support is addition: if `b`
has no bits below position `k` and `a` has none at or above it, `a ||| b`
is `b + a`. -/
theorem lor_eq_add_of_lt (k a b : Nat) (hb : b % 2 ^ k = 0) (ha : a < 2 ^ k) :
    a ||| b = b + a := by
  have h : 2 ^ k * (b / 2 ^ k) = b := by
    rw [Nat.mul_comm]
    exact Nat.div_mul_cancel (Nat.dvd_of_mod_eq_zero hb)
  rw [Nat.or_comm, ← h]
  exact (Nat.mul_add_lt_is_or ha _).symm

/-- Symmetric form of `lor_eq_add_of_lt` (low part on the right). -/
theorem lor_eq_add_of_lt' (k a b : Nat) (ha : a % 2 ^ k = 0) (hb : b < 2 ^ k) :
    a ||| b = a + b := by
  rw [Nat.or_comm, lor_eq_add_of_lt k b a ha hb]

/-- The pointer mask `0x00ff_ffff_ffff_ffff` keeps exactly the low 56 bits. -/
theorem and_mask56_eq_mod (x : Nat) : x &&& 0x00ffffffffffffff = x % 2 ^ 56 := by
  have h : (0x00ffffffffffffff : Nat) = 2 ^ 56 - 1 := by norm_num
  rw [h, Nat.and_pow_two_sub_one_eq_mod]

/-- Claim C1 (code bug in `nativectx.rs`): contrary to the claim, a
successful `AmxCtx::new()` never writes `CTX_ACTIVE`, so starting from a
fresh thread (`CTX_ACTIVE = false`) the first call succeeds, leaves the
flag `false`, and an immediate second call on the same thread also returns
`Ok` (emitting a second enable) instead of `Err(AlreadyActive)`. -/
theorem amxCtxNew_twice_on_same_thread_succeeds :
    amxCtxNew false = (Except.ok (), false, [CoInstr.set]) ∧
    (amxCtxNew (amxCtxNew false).2.1).1 = Except.ok () :=
  ⟨rfl, rfl⟩

/-- Claim C8: when `CTX_ACTIVE` is `true` at entry, `AmxCtx::new()` returns
`Err(AlreadyActive)` having emitted no coprocessor instruction and leaving
the flag unchanged. -/
theorem amxCtxNew_already_active_is_pure_error :
    amxCtxNew true = (Except.error NewAmxCtxError.alreadyActive, true, []) :=
  rfl

/-- Claim C2: for every register index `n < 32`, reading `n`'s decimal
digit string as hexadecimal and then extracting the low nibble (ones) and
the high nibble (tens) as decimal place values recovers `n` exactly, so the
`op_in` instruction word equals `0x00201000 + (op << 5) + n`. -/
theorem opIn_register_index_recovery (op n : Nat) (h : n < 32) :
    (decimalAsHex n &&& 0xf) + (decimalAsHex n >>> 4) * 10 = n ∧
    opInWord op (decimalAsHex n) = 0x00201000 + (op <<< 5) + n := by
  have key : ∀ m, m < 32 →
      (decimalAsHex m &&& 0xf) + (decimalAsHex m >>> 4) * 10 = m := by decide
  refine ⟨key n h, ?_⟩
  have hk := key n h
  unfold opInWord
  omega

/-- Witness for C2 at the register alias `13` (hex misread `0x13 = 19`)
and the `mac16` opcode 14. -/
theorem opIn_register_index_recovery_witness :
    (decimalAsHex 19 &&& 0xf) + (decimalAsHex 19 >>> 4) * 10 = 19 ∧
    opInWord 14 (decimalAsHex 19) = 0x00201000 + (14 <<< 5) + 19 :=
  opIn_register_index_recovery 14 19 (by decide)

/-- Claim C6: the `LutTy` classification is a closed set of exactly 16
combinations and `genlut_mode` maps them bijectively onto `0..16`, with
`(Reverse, Index4, F32) = 0` and `(Normal, Index5, X8) = 15`. -/
theorem genlut_mode_is_bijection_onto_0_15 :
    Finset.image genlut_mode Finset.univ = Finset.range 16 ∧
    (Finset.image genlut_mode Finset.univ).card = 16 ∧
    Fintype.card LutTy = 16 ∧
    genlut_mode LutTy.reverse_index4_f32 = 0 ∧
    genlut_mode LutTy.normal_index5_x8 = 15 := by
  refine ⟨by decide, by decide, by decide, rfl, rfl⟩

/-- Claim C3: under the documented bounds, `outer_product_i16_xy_to_z`
passes to `mac16` exactly the word
`y | (x << 10) | (z << 20) | ((!accumulate) << 27) | (ignore_x << 28) | (ignore_y << 29)`
(written here in carry-free additive form since the fields are disjoint);
bit 27 is set iff `accumulate` is false, and all bits at positions 30 and
above are zero. -/
theorem outer_product_word_layout (x y z : Nat) (acc igx igy : Bool)
    (hx : x < 0x200) (hy : y < 0x200) (hz : z < 64) :
    outer_product_i16_xy_to_z x y z acc igx igy =
      LibCall.mac16 (outer_product_operand x y z acc igx igy) ∧
    outer_product_operand x y z acc igx igy =
      y + x * 2 ^ 10 + z * 2 ^ 20 + (!acc).toNat * 2 ^ 27 +
        igx.toNat * 2 ^ 28 + igy.toNat * 2 ^ 29 ∧
    (outer_product_operand x y z acc igx igy / 2 ^ 27 % 2 = 1 ↔ acc = false) ∧
    outer_product_operand x y z acc igx igy < 2 ^ 30 := by
  have ha : (!acc).toNat ≤ 1 := by cases acc <;> decide
  have hbx : igx.toNat ≤ 1 := by cases igx <;> decide
  have hby : igy.toNat ≤ 1 := by cases igy <;> decide
  have hadd : outer_product_operand x y z acc igx igy =
      y + x * 2 ^ 10 + z * 2 ^ 20 + (!acc).toNat * 2 ^ 27 +
        igx.toNat * 2 ^ 28 + igy.toNat * 2 ^ 29 := by
    unfold outer_product_operand
    simp only [Nat.shiftLeft_eq]
    rw [lor_eq_add_of_lt 10 y (x * 2 ^ 10) (by omega) (by omega)]
    rw [lor_eq_add_of_lt 20 (x * 2 ^ 10 + y) (z * 2 ^ 20) (by omega) (by omega)]
    rw [lor_eq_add_of_lt 27 (z * 2 ^ 20 + (x * 2 ^ 10 + y))
      ((!acc).toNat * 2 ^ 27) (by omega) (by omega)]
    rw [lor_eq_add_of_lt 28
      ((!acc).toNat * 2 ^ 27 + (z * 2 ^ 20 + (x * 2 ^ 10 + y)))
      (igx.toNat * 2 ^ 28) (by omega) (by omega)]
    rw [lor_eq_add_of_lt 29
      (igx.toNat * 2 ^ 28 +
        ((!acc).toNat * 2 ^ 27 + (z * 2 ^ 20 + (x * 2 ^ 10 + y))))
      (igy.toNat * 2 ^ 29) (by omega) (by omega)]
    omega
  refine ⟨rfl, hadd, ?_, ?_⟩
  · rw [hadd]
    cases acc <;> simp <;> omega
  · rw [hadd]
    omega

/-- Witness for C3 at `x = 2, y = 3, z = 50, accumulate = false,
ignore_x = true, ignore_y = false`. -/
theorem outer_product_word_layout_witness :
    outer_product_i16_xy_to_z 2 3 50 false true false =
      LibCall.mac16 (outer_product_operand 2 3 50 false true false) ∧
    outer_product_operand 2 3 50 false true false =
      3 + 2 * 2 ^ 10 + 50 * 2 ^ 20 + (!false).toNat * 2 ^ 27 +
        (true : Bool).toNat * 2 ^ 28 + (false : Bool).toNat * 2 ^ 29 ∧
    (outer_product_operand 2 3 50 false true false / 2 ^ 27 % 2 = 1 ↔
      false = false) ∧
    outer_product_operand 2 3 50 false true false < 2 ^ 30 :=
  outer_product_word_layout 2 3 50 false true false (by decide) (by decide)
    (by decide)

/-- Claim C4: the separate-pointer load/store encoder (`load_store.rs`)
produces a word with `reg_offset` in bits `[56:62)`, the size flag
(0 = 64 bytes, 1 = 128 bytes) in bit 62, and all other bits zero — in
particular the pointer is absent from the word; the hardware backend
(`nativeops.rs`) then ORs the pointer's low 56 bits into bits `[0:56)`,
leaving the upper fields intact. -/
theorem mem_encode_and_hw_pointer_or (r ptr : Nat) (s : MemSize)
    (h : r < 64) :
    MemArgs.encode ⟨r, s⟩ % 2 ^ 56 = 0 ∧
    MemArgs.encode ⟨r, s⟩ / 2 ^ 56 % 2 ^ 6 = r ∧
    MemArgs.encode ⟨r, s⟩ / 2 ^ 62 % 2 = s.code ∧
    MemArgs.encode ⟨r, s⟩ < 2 ^ 63 ∧
    hwLoadStoreWord (MemArgs.encode ⟨r, s⟩) ptr =
      MemArgs.encode ⟨r, s⟩ + ptr % 2 ^ 56 ∧
    hwLoadStoreWord (MemArgs.encode ⟨r, s⟩) ptr % 2 ^ 56 = ptr % 2 ^ 56 ∧
    hwLoadStoreWord (MemArgs.encode ⟨r, s⟩) ptr / 2 ^ 56 =
      MemArgs.encode ⟨r, s⟩ / 2 ^ 56 := by
  have hcode : s.code ≤ 1 := by cases s <;> decide
  have hadd : MemArgs.encode ⟨r, s⟩ = r * 2 ^ 56 + s.code * 2 ^ 62 := by
    show (r <<< 56) ||| (s.code <<< 62) = r * 2 ^ 56 + s.code * 2 ^ 62
    simp only [Nat.shiftLeft_eq]
    rw [lor_eq_add_of_lt 62 (r * 2 ^ 56) (s.code * 2 ^ 62) (by omega)
      (by omega)]
    omega
  have hw : hwLoadStoreWord (MemArgs.encode ⟨r, s⟩) ptr =
      MemArgs.encode ⟨r, s⟩ + ptr % 2 ^ 56 := by
    unfold hwLoadStoreWord
    rw [and_mask56_eq_mod]
    exact lor_eq_add_of_lt' 56 (MemArgs.encode ⟨r, s⟩) (ptr % 2 ^ 56)
      (by rw [hadd]; omega) (by omega)
  refine ⟨by rw [hadd]; omega, by rw [hadd]; omega, by rw [hadd]; omega,
    by rw [hadd]; omega, hw, by rw [hw, hadd]; omega, by rw [hw, hadd]; omega⟩

/-- Witness for C4 at `reg_offset = 5`, a 128-byte transfer and a pointer
with bits above position 55 set. -/
theorem mem_encode_and_hw_pointer_or_witness :
    MemArgs.encode ⟨5, MemSize.sz128⟩ % 2 ^ 56 = 0 ∧
    MemArgs.encode ⟨5, MemSize.sz128⟩ / 2 ^ 56 % 2 ^ 6 = 5 ∧
    MemArgs.encode ⟨5, MemSize.sz128⟩ / 2 ^ 62 % 2 = MemSize.sz128.code ∧
    MemArgs.encode ⟨5, MemSize.sz128⟩ < 2 ^ 63 ∧
    hwLoadStoreWord (MemArgs.encode ⟨5, MemSize.sz128⟩) 0x123456789abcdef0 =
      MemArgs.encode ⟨5, MemSize.sz128⟩ + 0x123456789abcdef0 % 2 ^ 56 ∧
    hwLoadStoreWord (MemArgs.encode ⟨5, MemSize.sz128⟩) 0x123456789abcdef0 %
        2 ^ 56 = 0x123456789abcdef0 % 2 ^ 56 ∧
    hwLoadStoreWord (MemArgs.encode ⟨5, MemSize.sz128⟩) 0x123456789abcdef0 /
        2 ^ 56 = MemArgs.encode ⟨5, MemSize.sz128⟩ / 2 ^ 56 :=
  mem_encode_and_hw_pointer_or 5 0x123456789abcdef0 MemSize.sz128 (by decide)

/-- The `lib.rs` encoder for a 64-byte transfer, in carry-free additive
form: pointer's low 56 bits in `[0:56)`, register row at bit 56. -/
theorem libEncode64_eq (ptr r : Nat) (_h : r < 64) :
    LibMemArgs.encode ⟨ptr, r, MemSize.sz64⟩ = ptr % 2 ^ 56 + r * 2 ^ 56 := by
  show (ptr &&& 0x00ffffffffffffff) ||| (r <<< 56) |||
      (MemSize.code MemSize.sz64 <<< 62) = ptr % 2 ^ 56 + r * 2 ^ 56
  rw [and_mask56_eq_mod]
  simp only [MemSize.code, Nat.shiftLeft_eq, Nat.zero_mul, Nat.or_zero]
  rw [lor_eq_add_of_lt 56 (ptr % 2 ^ 56) (r * 2 ^ 56) (by omega) (by omega)]
  omega

/-- Claim C7: `read_x`, `read_y` and `read_z` drain their register file by
issuing exactly one `store512` of the right kind per row (8, 8 and 64
rows), in increasing row order, each directing row `i`'s 64 bytes to byte
offset `64 * i` of the output buffer at `ret`, and issue no other backend
operation. -/
theorem read_registers_one_store_per_row (ret : Nat) :
    ((read_x ret).length = 8 ∧
      (∀ c ∈ read_x ret, ∃ w, c = LibCall.stx w) ∧
      (∀ i, i < 8 → ∃ w, (read_x ret)[i]? = some (LibCall.stx w) ∧
        w / 2 ^ 56 % 2 ^ 6 = i ∧ w % 2 ^ 56 = (ret + i * 64) % 2 ^ 56 ∧
        w / 2 ^ 62 = 0)) ∧
    ((read_y ret).length = 8 ∧
      (∀ c ∈ read_y ret, ∃ w, c = LibCall.sty w) ∧
      (∀ i, i < 8 → ∃ w, (read_y ret)[i]? = some (LibCall.sty w) ∧
        w / 2 ^ 56 % 2 ^ 6 = i ∧ w % 2 ^ 56 = (ret + i * 64) % 2 ^ 56 ∧
        w / 2 ^ 62 = 0)) ∧
    ((read_z ret).length = 64 ∧
      (∀ c ∈ read_z ret, ∃ w, c = LibCall.stz w) ∧
      (∀ i, i < 64 → ∃ w, (read_z ret)[i]? = some (LibCall.stz w) ∧
        w / 2 ^ 56 % 2 ^ 6 = i ∧ w % 2 ^ 56 = (ret + i * 64) % 2 ^ 56 ∧
        w / 2 ^ 62 = 0)) := by
  refine ⟨⟨?_, ?_, ?_⟩, ⟨?_, ?_, ?_⟩, ⟨?_, ?_, ?_⟩⟩
  · simp [read_x]
  · intro c hc
    obtain ⟨i, _, rfl⟩ := List.mem_map.1 hc
    exact ⟨_, rfl⟩
  · intro i hi
    refine ⟨LibMemArgs.encode ⟨ret + i * 64, i, MemSize.sz64⟩, ?_, ?_, ?_, ?_⟩
    · show ((List.range 8).map fun j => store512_x (ret + j * 64) j)[i]? = _
      simp [List.getElem?_map, List.getElem?_range, hi, store512_x]
    · rw [libEncode64_eq _ _ (by omega)]; omega
    · rw [libEncode64_eq _ _ (by omega)]; omega
    · rw [libEncode64_eq _ _ (by omega)]; omega
  · simp [read_y]
  · intro c hc
    obtain ⟨i, _, rfl⟩ := List.mem_map.1 hc
    exact ⟨_, rfl⟩
  · intro i hi
    refine ⟨LibMemArgs.encode ⟨ret + i * 64, i, MemSize.sz64⟩, ?_, ?_, ?_, ?_⟩
    · show ((List.range 8).map fun j => store512_y (ret + j * 64) j)[i]? = _
      simp [List.getElem?_map, List.getElem?_range, hi, store512_y]
    · rw [libEncode64_eq _ _ (by omega)]; omega
    · rw [libEncode64_eq _ _ (by omega)]; omega
    · rw [libEncode64_eq _ _ (by omega)]; omega
  · simp [read_z]
  · intro c hc
    obtain ⟨i, _, rfl⟩ := List.mem_map.1 hc
    exact ⟨_, rfl⟩
  · intro i hi
    refine ⟨LibMemArgs.encode ⟨ret + i * 64, i, MemSize.sz64⟩, ?_, ?_, ?_, ?_⟩
    · show ((List.range 64).map fun j => store512_z (ret + j * 64) j)[i]? = _
      simp [List.getElem?_map, List.getElem?_range, hi, store512_z]
    · rw [libEncode64_eq _ _ (by omega)]; omega
    · rw [libEncode64_eq _ _ (by omega)]; omega
    · rw [libEncode64_eq _ _ (by omega)]; omega

/-- Witness for C7 at buffer address `ret = 4096`, exercising the
hypothesis-bearing per-index conjuncts at rows 7 and 63. -/
theorem read_registers_one_store_per_row_witness :
    (∃ w, (read_x 4096)[7]? = some (LibCall.stx w) ∧
      w / 2 ^ 56 % 2 ^ 6 = 7 ∧ w % 2 ^ 56 = (4096 + 7 * 64) % 2 ^ 56 ∧
      w / 2 ^ 62 = 0) ∧
    (∃ w, (read_z 4096)[63]? = some (LibCall.stz w) ∧
      w / 2 ^ 56 % 2 ^ 6 = 63 ∧ w % 2 ^ 56 = (4096 + 63 * 64) % 2 ^ 56 ∧
      w / 2 ^ 62 = 0) :=
  ⟨(read_registers_one_store_per_row 4096).1.2.2 7 (by decide),
    (read_registers_one_store_per_row 4096).2.2.2.2 63 (by decide)⟩

/-- Claim C9: on an out-of-range row index (`XRow`/`YRow` index at least 8,
`ZRow` index at least 64) every `LoadStore` operation and both interleaved
`Z` transfers hit the unconditional `assert!` and panic (modelled as
`none`) before any backend operation is produced; the backend is never
invoked with an out-of-range index through these entry points. -/
theorem loadstore_out_of_range_panics (nx nz ptr : Nat) (hx : 8 ≤ nx)
    (hz : 64 ≤ nz) :
    XRow.load512 ⟨nx⟩ ptr = none ∧
    XRow.store512 ⟨nx⟩ ptr = none ∧
    XRow.load1024_aligned ⟨nx⟩ ptr = none ∧
    XRow.store1024_aligned ⟨nx⟩ ptr = none ∧
    YRow.load512 ⟨nx⟩ ptr = none ∧
    YRow.store512 ⟨nx⟩ ptr = none ∧
    YRow.load1024_aligned ⟨nx⟩ ptr = none ∧
    YRow.store1024_aligned ⟨nx⟩ ptr = none ∧
    ZRow.load512 ⟨nz⟩ ptr = none ∧
    ZRow.store512 ⟨nz⟩ ptr = none ∧
    ZRow.load1024_aligned ⟨nz⟩ ptr = none ∧
    ZRow.store1024_aligned ⟨nz⟩ ptr = none ∧
    load512_z_interleaved ptr ⟨nz⟩ = none ∧
    store512_z_interleaved ptr ⟨nz⟩ = none := by
  unfold XRow.load512 XRow.store512 XRow.load1024_aligned
    XRow.store1024_aligned YRow.load512 YRow.store512 YRow.load1024_aligned
    YRow.store1024_aligned ZRow.load512 ZRow.store512 ZRow.load1024_aligned
    ZRow.store1024_aligned load512_z_interleaved store512_z_interleaved
  have h8 : ¬ nx < 8 := by omega
  have h64 : ¬ nz < 64 := by omega
  simp [h8, h64]

/-- Witness for C9 at the smallest out-of-range indices, 8 and 64. -/
theorem loadstore_out_of_range_panics_witness :
    XRow.load512 ⟨8⟩ 0 = none ∧
    XRow.store512 ⟨8⟩ 0 = none ∧
    XRow.load1024_aligned ⟨8⟩ 0 = none ∧
    XRow.store1024_aligned ⟨8⟩ 0 = none ∧
    YRow.load512 ⟨8⟩ 0 = none ∧
    YRow.store512 ⟨8⟩ 0 = none ∧
    YRow.load1024_aligned ⟨8⟩ 0 = none ∧
    YRow.store1024_aligned ⟨8⟩ 0 = none ∧
    ZRow.load512 ⟨64⟩ 0 = none ∧
    ZRow.store512 ⟨64⟩ 0 = none ∧
    ZRow.load1024_aligned ⟨64⟩ 0 = none ∧
    ZRow.store1024_aligned ⟨64⟩ 0 = none ∧
    load512_z_interleaved 0 ⟨64⟩ = none ∧
    store512_z_interleaved 0 ⟨64⟩ = none :=
  loadstore_out_of_range_panics 8 64 0 (by decide) (by decide)

/-- Counterexample to claim C5 as stated: the legal call with input
`XBytes(0)`, table row 0, output `ZRow(32)` and mode
`(Reverse, Index4, F32)` produces a `genlut` word whose bit 25 is set even
though the output is in `Z`, not in `Y` — the 6-bit `Z` output-row field
`[20:26)` overlaps the claimed `Y` discriminator bit 25. -/
theorem lut_bit25_set_for_z_output :
    lut (GenLutInput.xBytes ⟨0⟩) 0 (GenLutOutput.zRow ⟨32⟩)
        LutTy.reverse_index4_f32 =
      Call.genlut (lutOperand (GenLutInput.xBytes ⟨0⟩) 0
        (GenLutOutput.zRow ⟨32⟩) LutTy.reverse_index4_f32) ∧
    lutOperand (GenLutInput.xBytes ⟨0⟩) 0 (GenLutOutput.zRow ⟨32⟩)
        LutTy.reverse_index4_f32 / 2 ^ 25 % 2 = 1 ∧
    (GenLutOutput.zRow ⟨32⟩).isY = false ∧
    (GenLutOutput.zRow ⟨32⟩).row < 64 ∧
    (GenLutInput.xBytes ⟨0⟩).offset < 512 :=
  ⟨rfl, by decide, rfl, by decide, by decide⟩

/-- Claim C5 (amended): for every legal `lut` call the `genlut` word
carries the input byte offset in bits `[0:10)`, bit 10 iff the input is in
`Y`, the output row from bit 20 (5 bits for `XRow`/`YRow`, 6 bits for
`ZRow`), bit 26 iff the output is in `Z`, the mode code in `[53:57)` and
the table row in `[60:64)`, with every undocumented bit zero; bit 25 is
set iff the output is in `Y` or is a `Z` row with index at least 32 (the
`Z` row field overlaps bit 25). -/
theorem lut_word_fields (inp : GenLutInput) (trow : Nat)
    (out : GenLutOutput) (mode : LutTy) (hin : inp.offset < 512)
    (ht : trow < 8) (hout : out.row < out.rowBound) :
    lut inp trow out mode = Call.genlut (lutOperand inp trow out mode) ∧
    lutOperand inp trow out mode % 2 ^ 10 = inp.offset ∧
    lutOperand inp trow out mode / 2 ^ 10 % 2 = inp.isY.toNat ∧
    lutOperand inp trow out mode / 2 ^ 11 % 2 ^ 9 = 0 ∧
    (out.isZ = false →
      lutOperand inp trow out mode / 2 ^ 20 % 2 ^ 5 = out.row) ∧
    (out.isZ = true →
      lutOperand inp trow out mode / 2 ^ 20 % 2 ^ 6 = out.row) ∧
    (lutOperand inp trow out mode / 2 ^ 25 % 2 = 1 ↔
      (out.isY = true ∨ (out.isZ = true ∧ 32 ≤ out.row))) ∧
    lutOperand inp trow out mode / 2 ^ 26 % 2 = out.isZ.toNat ∧
    lutOperand inp trow out mode / 2 ^ 27 % 2 ^ 26 = 0 ∧
    lutOperand inp trow out mode / 2 ^ 53 % 2 ^ 4 = genlut_mode mode ∧
    genlut_mode mode < 16 ∧
    lutOperand inp trow out mode / 2 ^ 57 % 2 ^ 3 = 0 ∧
    lutOperand inp trow out mode / 2 ^ 60 = trow := by
  have hm : genlut_mode mode < 16 := by cases mode <;> decide
  refine ⟨rfl, ?_⟩
  obtain ⟨⟨n⟩⟩ | ⟨⟨n⟩⟩ := inp <;> obtain ⟨⟨r⟩⟩ | ⟨⟨r⟩⟩ | ⟨⟨r⟩⟩ := out
  ·
    simp only [GenLutInput.offset, GenLutOutput.row, GenLutOutput.rowBound] at hin hout
    have hw : lutOperand (GenLutInput.xBytes ⟨n⟩) trow
        (GenLutOutput.xRow ⟨r⟩) mode =
        n + r * 2 ^ 20 + genlut_mode mode * 2 ^ 53 + trow * 2 ^ 60 := by
      unfold lutOperand
      simp only [GenLutInput.as_genlut_input_param,
        GenLutOutput.as_genlut_output_param, Nat.shiftLeft_eq]
      rw [lor_eq_add_of_lt 20 n (r * 2 ^ 20) (by omega) (by omega)]
      rw [lor_eq_add_of_lt 53 (r * 2 ^ 20 + n)
        (genlut_mode mode * 2 ^ 53) (by omega) (by omega)]
      rw [lor_eq_add_of_lt 60 (genlut_mode mode * 2 ^ 53 + (r * 2 ^ 20 + n))
        (trow * 2 ^ 60) (by omega) (by omega)]
      omega
    simp [GenLutInput.offset, GenLutInput.isY, GenLutOutput.row,
      GenLutOutput.isZ, GenLutOutput.isY, hw]
    omega
  ·
    simp only [GenLutInput.offset, GenLutOutput.row, GenLutOutput.rowBound] at hin hout
    have hw : lutOperand (GenLutInput.xBytes ⟨n⟩) trow
        (GenLutOutput.yRow ⟨r⟩) mode =
        n + r * 2 ^ 20 + 2 ^ 25 + genlut_mode mode * 2 ^ 53 +
          trow * 2 ^ 60 := by
      unfold lutOperand
      simp only [GenLutInput.as_genlut_input_param,
        GenLutOutput.as_genlut_output_param, Nat.shiftLeft_eq]
      rw [lor_eq_add_of_lt 25 (r * 2 ^ 20) (1 * 2 ^ 25) (by omega) (by omega)]
      rw [lor_eq_add_of_lt 20 n (1 * 2 ^ 25 + r * 2 ^ 20) (by omega)
        (by omega)]
      rw [lor_eq_add_of_lt 53 (1 * 2 ^ 25 + r * 2 ^ 20 + n)
        (genlut_mode mode * 2 ^ 53) (by omega) (by omega)]
      rw [lor_eq_add_of_lt 60
        (genlut_mode mode * 2 ^ 53 + (1 * 2 ^ 25 + r * 2 ^ 20 + n))
        (trow * 2 ^ 60) (by omega) (by omega)]
      omega
    simp [GenLutInput.offset, GenLutInput.isY, GenLutOutput.row,
      GenLutOutput.isZ, GenLutOutput.isY, hw]
    omega
  ·
    simp only [GenLutInput.offset, GenLutOutput.row, GenLutOutput.rowBound] at hin hout
    have hw : lutOperand (GenLutInput.xBytes ⟨n⟩) trow
        (GenLutOutput.zRow ⟨r⟩) mode =
        n + r * 2 ^ 20 + 2 ^ 26 + genlut_mode mode * 2 ^ 53 +
          trow * 2 ^ 60 := by
      unfold lutOperand
      simp only [GenLutInput.as_genlut_input_param,
        GenLutOutput.as_genlut_output_param, Nat.shiftLeft_eq]
      rw [lor_eq_add_of_lt 26 (r * 2 ^ 20) (1 * 2 ^ 26) (by omega) (by omega)]
      rw [lor_eq_add_of_lt 20 n (1 * 2 ^ 26 + r * 2 ^ 20) (by omega)
        (by omega)]
      rw [lor_eq_add_of_lt 53 (1 * 2 ^ 26 + r * 2 ^ 20 + n)
        (genlut_mode mode * 2 ^ 53) (by omega) (by omega)]
      rw [lor_eq_add_of_lt 60
        (genlut_mode mode * 2 ^ 53 + (1 * 2 ^ 26 + r * 2 ^ 20 + n))
        (trow * 2 ^ 60) (by omega) (by omega)]
      omega
    simp [GenLutInput.offset, GenLutInput.isY, GenLutOutput.row,
      GenLutOutput.isZ, GenLutOutput.isY, hw]
    omega
  ·
    simp only [GenLutInput.offset, GenLutOutput.row, GenLutOutput.rowBound] at hin hout
    have hw : lutOperand (GenLutInput.yBytes ⟨n⟩) trow
        (GenLutOutput.xRow ⟨r⟩) mode =
        n + 2 ^ 10 + r * 2 ^ 20 + genlut_mode mode * 2 ^ 53 +
          trow * 2 ^ 60 := by
      unfold lutOperand
      simp only [GenLutInput.as_genlut_input_param,
        GenLutOutput.as_genlut_output_param, Nat.shiftLeft_eq]
      rw [lor_eq_add_of_lt 10 n (1 * 2 ^ 10) (by omega) (by omega)]
      rw [lor_eq_add_of_lt 20 (1 * 2 ^ 10 + n) (r * 2 ^ 20) (by omega)
        (by omega)]
      rw [lor_eq_add_of_lt 53 (r * 2 ^ 20 + (1 * 2 ^ 10 + n))
        (genlut_mode mode * 2 ^ 53) (by omega) (by omega)]
      rw [lor_eq_add_of_lt 60
        (genlut_mode mode * 2 ^ 53 + (r * 2 ^ 20 + (1 * 2 ^ 10 + n)))
        (trow * 2 ^ 60) (by omega) (by omega)]
      omega
    simp [GenLutInput.offset, GenLutInput.isY, GenLutOutput.row,
      GenLutOutput.isZ, GenLutOutput.isY, hw]
    omega
  ·
    simp only [GenLutInput.offset, GenLutOutput.row, GenLutOutput.rowBound] at hin hout
    have hw : lutOperand (GenLutInput.yBytes ⟨n⟩) trow
        (GenLutOutput.yRow ⟨r⟩) mode =
        n + 2 ^ 10 + r * 2 ^ 20 + 2 ^ 25 + genlut_mode mode * 2 ^ 53 +
          trow * 2 ^ 60 := by
      unfold lutOperand
      simp only [GenLutInput.as_genlut_input_param,
        GenLutOutput.as_genlut_output_param, Nat.shiftLeft_eq]
      rw [lor_eq_add_of_lt 10 n (1 * 2 ^ 10) (by omega) (by omega)]
      rw [lor_eq_add_of_lt 25 (r * 2 ^ 20) (1 * 2 ^ 25) (by omega) (by omega)]
      rw [lor_eq_add_of_lt 20 (1 * 2 ^ 10 + n) (1 * 2 ^ 25 + r * 2 ^ 20)
        (by omega) (by omega)]
      rw [lor_eq_add_of_lt 53 (1 * 2 ^ 25 + r * 2 ^ 20 + (1 * 2 ^ 10 + n))
        (genlut_mode mode * 2 ^ 53) (by omega) (by omega)]
      rw [lor_eq_add_of_lt 60
        (genlut_mode mode * 2 ^ 53 +
          (1 * 2 ^ 25 + r * 2 ^ 20 + (1 * 2 ^ 10 + n)))
        (trow * 2 ^ 60) (by omega) (by omega)]
      omega
    simp [GenLutInput.offset, GenLutInput.isY, GenLutOutput.row,
      GenLutOutput.isZ, GenLutOutput.isY, hw]
    omega
  ·
    simp only [GenLutInput.offset, GenLutOutput.row, GenLutOutput.rowBound] at hin hout
    have hw : lutOperand (GenLutInput.yBytes ⟨n⟩) trow
        (GenLutOutput.zRow ⟨r⟩) mode =
        n + 2 ^ 10 + r * 2 ^ 20 + 2 ^ 26 + genlut_mode mode * 2 ^ 53 +
          trow * 2 ^ 60 := by
      unfold lutOperand
      simp only [GenLutInput.as_genlut_input_param,
        GenLutOutput.as_genlut_output_param, Nat.shiftLeft_eq]
      rw [lor_eq_add_of_lt 10 n (1 * 2 ^ 10) (by omega) (by omega)]
      rw [lor_eq_add_of_lt 26 (r * 2 ^ 20) (1 * 2 ^ 26) (by omega) (by omega)]
      rw [lor_eq_add_of_lt 20 (1 * 2 ^ 10 + n) (1 * 2 ^ 26 + r * 2 ^ 20)
        (by omega) (by omega)]
      rw [lor_eq_add_of_lt 53 (1 * 2 ^ 26 + r * 2 ^ 20 + (1 * 2 ^ 10 + n))
        (genlut_mode mode * 2 ^ 53) (by omega) (by omega)]
      rw [lor_eq_add_of_lt 60
        (genlut_mode mode * 2 ^ 53 +
          (1 * 2 ^ 26 + r * 2 ^ 20 + (1 * 2 ^ 10 + n)))
        (trow * 2 ^ 60) (by omega) (by omega)]
      omega
    simp [GenLutInput.offset, GenLutInput.isY, GenLutOutput.row,
      GenLutOutput.isZ, GenLutOutput.isY, hw]
    omega

/-- Witness for the amended C5 at input `YBytes(5)`, table row 3, output
`ZRow(40)`, mode `(Normal, Index4, X8)`. -/
theorem lut_word_fields_witness :
    lut (GenLutInput.yBytes ⟨5⟩) 3 (GenLutOutput.zRow ⟨40⟩)
        LutTy.normal_index4_x8 =
      Call.genlut (lutOperand (GenLutInput.yBytes ⟨5⟩) 3
        (GenLutOutput.zRow ⟨40⟩) LutTy.normal_index4_x8) ∧
    lutOperand (GenLutInput.yBytes ⟨5⟩) 3 (GenLutOutput.zRow ⟨40⟩)
        LutTy.normal_index4_x8 % 2 ^ 10 =
      (GenLutInput.yBytes ⟨5⟩).offset ∧
    lutOperand (GenLutInput.yBytes ⟨5⟩) 3 (GenLutOutput.zRow ⟨40⟩)
        LutTy.normal_index4_x8 / 2 ^ 10 % 2 =
      (GenLutInput.yBytes ⟨5⟩).isY.toNat ∧
    lutOperand (GenLutInput.yBytes ⟨5⟩) 3 (GenLutOutput.zRow ⟨40⟩)
        LutTy.normal_index4_x8 / 2 ^ 11 % 2 ^ 9 = 0 ∧
    ((GenLutOutput.zRow ⟨40⟩).isZ = false →
      lutOperand (GenLutInput.yBytes ⟨5⟩) 3 (GenLutOutput.zRow ⟨40⟩)
          LutTy.normal_index4_x8 / 2 ^ 20 % 2 ^ 5 =
        (GenLutOutput.zRow ⟨40⟩).row) ∧
    ((GenLutOutput.zRow ⟨40⟩).isZ = true →
      lutOperand (GenLutInput.yBytes ⟨5⟩) 3 (GenLutOutput.zRow ⟨40⟩)
          LutTy.normal_index4_x8 / 2 ^ 20 % 2 ^ 6 =
        (GenLutOutput.zRow ⟨40⟩).row) ∧
    (lutOperand (GenLutInput.yBytes ⟨5⟩) 3 (GenLutOutput.zRow ⟨40⟩)
        LutTy.normal_index4_x8 / 2 ^ 25 % 2 = 1 ↔
      ((GenLutOutput.zRow ⟨40⟩).isY = true ∨
        ((GenLutOutput.zRow ⟨40⟩).isZ = true ∧
          32 ≤ (GenLutOutput.zRow ⟨40⟩).row))) ∧
    lutOperand (GenLutInput.yBytes ⟨5⟩) 3 (GenLutOutput.zRow ⟨40⟩)
        LutTy.normal_index4_x8 / 2 ^ 26 % 2 =
      (GenLutOutput.zRow ⟨40⟩).isZ.toNat ∧
    lutOperand (GenLutInput.yBytes ⟨5⟩) 3 (GenLutOutput.zRow ⟨40⟩)
        LutTy.normal_index4_x8 / 2 ^ 27 % 2 ^ 26 = 0 ∧
    lutOperand (GenLutInput.yBytes ⟨5⟩) 3 (GenLutOutput.zRow ⟨40⟩)
        LutTy.normal_index4_x8 / 2 ^ 53 % 2 ^ 4 =
      genlut_mode LutTy.normal_index4_x8 ∧
    genlut_mode LutTy.normal_index4_x8 < 16 ∧
    lutOperand (GenLutInput.yBytes ⟨5⟩) 3 (GenLutOutput.zRow ⟨40⟩)
        LutTy.normal_index4_x8 / 2 ^ 57 % 2 ^ 3 = 0 ∧
    lutOperand (GenLutInput.yBytes ⟨5⟩) 3 (GenLutOutput.zRow ⟨40⟩)
        LutTy.normal_index4_x8 / 2 ^ 60 = 3 :=
  lut_word_fields (GenLutInput.yBytes ⟨5⟩) 3 (GenLutOutput.zRow ⟨40⟩)
    LutTy.normal_index4_x8 (by decide) (by decide) (by decide)

/-- Claim C10: `AmxEmuCtx::new()` (which is `Self::default()`) yields a
fully zero-initialized register-file model: 512 zero bytes in `x`, 512 in
`y`, 4096 in `z`, matching 8, 8 and 64 rows of 64 bytes. -/
theorem amxEmuCtx_new_register_files_zeroed :
    AmxEmuCtx.new = AmxEmuCtx.deflt ∧
    AmxEmuCtx.new.st.x = List.replicate 512 0 ∧
    AmxEmuCtx.new.st.y = List.replicate 512 0 ∧
    AmxEmuCtx.new.st.z = List.replicate 4096 0 ∧
    AmxEmuCtx.new.st.x.length = 8 * 64 ∧
    AmxEmuCtx.new.st.y.length = 8 * 64 ∧
    AmxEmuCtx.new.st.z.length = 64 * 64 := by
  refine ⟨rfl, rfl, rfl, rfl, ?_, ?_, ?_⟩
  · show (List.replicate 512 (0 : Nat)).length = 8 * 64
    rw [List.length_replicate]
  · show (List.replicate 512 (0 : Nat)).length = 8 * 64
    rw [List.length_replicate]
  · show (List.replicate 4096 (0 : Nat)).length = 64 * 64
    rw [List.length_replicate]
